import Mathlib

set_option maxRecDepth 2000

/-!
Verification of the descqa repository (MB2 galaxy-catalog reader and
color-distribution validation test) against its natural-language
specification.

The numeric model: numpy double values are embedded as `PyFloat`, a rational
number together with the three IEEE special values (+inf, -inf, NaN).
Rational arithmetic stands in for exact real arithmetic on finite values;
comparisons with NaN are false, as in IEEE/numpy semantics.
-/

/-- Embedding of a numpy scalar value: finite (as an exact rational),
positive/negative infinity, or NaN. -/
inductive PyFloat where
  | fin (q : ℚ)
  | pinf
  | ninf
  | nan
deriving DecidableEq, Repr

/-- IEEE strict less-than: any comparison involving NaN is false. -/
def pyLt : PyFloat → PyFloat → Bool
  | .fin a, .fin b => decide (a < b)
  | .fin _, .pinf => true
  | .ninf, .fin _ => true
  | .ninf, .pinf => true
  | _, _ => false

/-- IEEE less-or-equal: any comparison involving NaN is false. -/
def pyLe : PyFloat → PyFloat → Bool
  | .fin a, .fin b => decide (a ≤ b)
  | .fin _, .pinf => true
  | .ninf, .fin _ => true
  | .ninf, .pinf => true
  | .ninf, .ninf => true
  | .pinf, .pinf => true
  | _, _ => false

/-- IEEE addition on the embedded values. -/
def pyAdd : PyFloat → PyFloat → PyFloat
  | .nan, _ => .nan
  | _, .nan => .nan
  | .fin a, .fin b => .fin (a + b)
  | .fin _, .pinf => .pinf
  | .fin _, .ninf => .ninf
  | .pinf, .fin _ => .pinf
  | .ninf, .fin _ => .ninf
  | .pinf, .pinf => .pinf
  | .ninf, .ninf => .ninf
  | .pinf, .ninf => .nan
  | .ninf, .pinf => .nan

/-- IEEE subtraction on the embedded values. -/
def pySub : PyFloat → PyFloat → PyFloat
  | .nan, _ => .nan
  | _, .nan => .nan
  | .fin a, .fin b => .fin (a - b)
  | .fin _, .pinf => .ninf
  | .fin _, .ninf => .pinf
  | .pinf, .fin _ => .pinf
  | .ninf, .fin _ => .ninf
  | .pinf, .pinf => .nan
  | .ninf, .ninf => .nan
  | .pinf, .ninf => .pinf
  | .ninf, .pinf => .ninf

/-- IEEE multiplication on the embedded values. -/
def pyMul : PyFloat → PyFloat → PyFloat
  | .nan, _ => .nan
  | _, .nan => .nan
  | .fin a, .fin b => .fin (a * b)
  | .fin a, .pinf => if 0 < a then .pinf else if a < 0 then .ninf else .nan
  | .fin a, .ninf => if 0 < a then .ninf else if a < 0 then .pinf else .nan
  | .pinf, .fin b => if 0 < b then .pinf else if b < 0 then .ninf else .nan
  | .ninf, .fin b => if 0 < b then .ninf else if b < 0 then .pinf else .nan
  | .pinf, .pinf => .pinf
  | .pinf, .ninf => .ninf
  | .ninf, .pinf => .ninf
  | .ninf, .ninf => .pinf

/-- The `np.isfinite` test: true exactly on finite values. -/
def isfinite : PyFloat → Bool
  | .fin _ => true
  | _ => false

/-- The `np.sum` of a 1-D array, folding IEEE addition from 0. -/
def pySum (l : List PyFloat) : PyFloat :=
  l.foldl pyAdd (.fin 0)

/-- The running cumulative sum `cdf[i] = cdf[i-1] + hist[i]` starting from an
accumulator that already holds `cdf[0]` (source: the explicit loops in
`run_validation_test`, ColorDistributionTest.py lines 167-170 and 205-208). -/
def cdfStep (c : PyFloat) : List PyFloat → List PyFloat
  | [] => [c]
  | x :: t => c :: cdfStep (pyAdd c x) t

/-- CDF of a histogram by prefix-sum: `cdf[0] = hist[0]`,
`cdf[i] = cdf[i-1] + hist[i]`. -/
def cdfOf : List PyFloat → List PyFloat
  | [] => []
  | h :: t => cdfStep h t

/-- Rational analogue of `cdfStep`, used to reason about CDFs of all-finite
histograms. -/
def qcdfStep (c : ℚ) : List ℚ → List ℚ
  | [] => [c]
  | x :: t => c :: qcdfStep (c + x) t

/-!
## Catalog adapter (src/reader/MB2GalaxyCatalog.py)

A catalog row is a lookup from stored column names to values; the catalog is
its list of rows (stored row order).  The astropy `distmod` function is
external to the repository, so it enters the embedding as an abstract
function parameter of type `Cosmology → PyFloat → PyFloat`.
-/

/-- A catalog row: a lookup from stored column names to values. -/
abbrev Row : Type := String → PyFloat

/-- A filter set, as the (key, value) pairs of the Python dict. -/
abbrev Filters : Type := List (String × PyFloat)

/-- Hubble constant parameter of the MB2 reader: `self.h = 0.702`. -/
def MB2h : ℚ := 0.702

/-- Flat ΛCDM cosmology parameters. -/
structure Cosmology where
  H0 : ℚ
  Om0 : ℚ
deriving DecidableEq, Repr

/-- The reader's cosmology:
`astropy.cosmology.FlatLambdaCDM(H0=self.h*100.0, Om0=0.275)`. -/
def MB2cosmology : Cosmology := { H0 := MB2h * 100.0, Om0 := 0.275 }

/-- The loop body of `_construct_mask` over the filter dict: for key "zlo"
AND the mask with `zlo < redshift`, for key "zhi" AND it with
`zhi > redshift`; any other key leaves the mask unchanged. -/
def filterFold (filters : Filters) (z : PyFloat) (b0 : Bool) : Bool :=
  filters.foldl
    (fun m kv =>
      if kv.1 = "zlo" then m && pyLt kv.2 z
      else if kv.1 = "zhi" then m && pyLt z kv.2
      else m) b0

/-- Per-row value of the mask built by `_construct_mask`: start all-true,
AND with `np.isfinite` of the x, y, z columns, then fold the filter dict. -/
def rowMask (filters : Filters) (r : Row) : Bool :=
  filterFold filters (r "redshift")
    (true && isfinite (r "x") && isfinite (r "y") && isfinite (r "z"))

/-- The `_construct_mask` method: the boolean mask over catalog rows. -/
def construct_mask (cat : List Row) (filters : Filters) : List Bool :=
  cat.map (rowMask filters)

/-- Numpy boolean-mask indexing `column[np.where(mask)]`. -/
def maskSelect {α : Type} (xs : List α) (mask : List Bool) : List α :=
  (xs.zip mask).filterMap (fun p => if p.2 then some p.1 else none)

/-- The `_get_stored_property` method: index the raw column by the filter mask. -/
def get_stored_property (cat : List Row) (quantity : String) (filters : Filters) :
    List PyFloat :=
  maskSelect (cat.map (fun r => r quantity)) (construct_mask cat filters)

/-- The two combinator functions of the derived-property table. -/
inductive Combinator where
  | multiply
  | addDistanceModulus
deriving DecidableEq, Repr

/-- The `self.derived` table of the MB2 reader: logical name ↦
(source columns, scalar parameters, combinator). -/
def derivedList : List (String × (List String × List ℚ × Combinator)) :=
  [ ("mass",            (["mass"],          [1e10 / MB2h], .multiply)),
    ("stellar_mass",    (["stellar_mass"],  [1e10 / MB2h], .multiply)),
    ("positionX",       (["x"],             [1e-3 / MB2h], .multiply)),
    ("positionY",       (["y"],             [1e-3 / MB2h], .multiply)),
    ("positionZ",       (["z"],             [1e-3 / MB2h], .multiply)),
    ("SDSS_u:observed:", (["SDSS_u:rest:", "redshift"], [], .addDistanceModulus)),
    ("SDSS_g:observed:", (["SDSS_g:rest:", "redshift"], [], .addDistanceModulus)),
    ("SDSS_r:observed:", (["SDSS_r:rest:", "redshift"], [], .addDistanceModulus)),
    ("SDSS_i:observed:", (["SDSS_i:rest:", "redshift"], [], .addDistanceModulus)),
    ("SDSS_z:observed:", (["SDSS_z:rest:", "redshift"], [], .addDistanceModulus)) ]

/-- Whether a quantity is read directly or derived. -/
inductive QuantityKind where
  | stored
  | derived
deriving DecidableEq, Repr

/-- The `self.quantities` dispatch table of the MB2 reader. -/
def quantitiesList : List (String × QuantityKind) :=
  [ ("halo_id",          .stored),
    ("parent_halo_id",   .stored),
    ("redshift",         .stored),
    ("positionX",        .derived),
    ("positionY",        .derived),
    ("positionZ",        .derived),
    ("velocityX",        .stored),
    ("velocityY",        .stored),
    ("velocityZ",        .stored),
    ("mass",             .derived),
    ("stellar_mass",     .derived),
    ("gas_mass",         .stored),
    ("sfr",              .stored),
    ("SDSS_u:observed:", .derived),
    ("SDSS_g:observed:", .derived),
    ("SDSS_r:observed:", .derived),
    ("SDSS_i:observed:", .derived),
    ("SDSS_z:observed:", .derived) ]

/-- Methods `_multiply` / `_add_distance_modulus` applied to the gathered source
columns: `array_tuple[0] * scalar_tuple[0]`, respectively
`array_tuple[0] + self.cosmology.distmod(array_tuple[1]).value`. -/
def applyCombinator (dm : Cosmology → PyFloat → PyFloat) :
    Combinator → List (List PyFloat) → List ℚ → List PyFloat
  | .multiply, arrays, scalars =>
      (arrays.headD []).map (fun a => pyMul a (.fin (scalars.headD 0)))
  | .addDistanceModulus, arrays, _ =>
      List.zipWith (fun a z => pyAdd a (dm MB2cosmology z))
        (arrays.headD []) (arrays.getD 1 [])

/-- The `_get_derived_property` method: build the mask once, gather each source column
under the mask, then apply the combinator. -/
def get_derived_property (dm : Cosmology → PyFloat → PyFloat) (cat : List Row)
    (quantity : String) (filters : Filters) : Option (List PyFloat) :=
  match derivedList.lookup quantity with
  | none => none
  | some (arrays_required, scalars, func) =>
      let mask := construct_mask cat filters
      some (applyCombinator dm func
        (arrays_required.map (fun name => maskSelect (cat.map (fun r => r name)) mask))
        scalars)

/-- The `get_quantities` entry point: dispatch through the `self.quantities` table; an
unknown name is a lookup failure (`none`). -/
def get_quantities (dm : Cosmology → PyFloat → PyFloat) (cat : List Row)
    (quantity : String) (filters : Filters) : Option (List PyFloat) :=
  match quantitiesList.lookup quantity with
  | none => none
  | some .stored => some (get_stored_property cat quantity filters)
  | some .derived => get_derived_property dm cat quantity filters

/-- The row predicate as the SPEC states it (for the refinement claim C4):
finite x, y, z coordinates; `zlo < redshift` when key "zlo" is present;
`redshift < zhi` when key "zhi" is present. -/
def specRowPred (filters : Filters) (r : Row) : Bool :=
  isfinite (r "x") && isfinite (r "y") && isfinite (r "z") &&
    (match filters.lookup "zlo" with
     | some v => pyLt v (r "redshift")
     | none => true) &&
    (match filters.lookup "zhi" with
     | some v => pyLt (r "redshift") v
     | none => true)

/-!
## Distribution validator (src/validation_code/ColorDistributionTest.py)

The validator sees the catalog through the reader interface only: a set of
available quantity names and a `get_quantities` map.  The statistics module
`CalcStats` and the reference loaders (`load_DEEP2` / `load_SDSS`) are
external to the repository, so their outputs enter as abstract data.
-/

/-- The galaxy-catalog reader interface as used by the validator. -/
structure GalaxyCatalog where
  quantities : List String
  getQuantities : String → Filters → List PyFloat

/-- Configuration of a `ColorDistributionTest` (construction-time kwargs plus
the pre-loaded per-color reference summary `vsummary`, whose entries are
(bin centers, histogram) pairs coming from the external loaders). -/
structure VTConfig where
  colors : List String
  translate : Char → String
  zlo : PyFloat
  zhi : PyFloat
  limiting : Option (Char × PyFloat)
  vsummary : ℕ → List ℚ × List PyFloat

/-- Band one of a color: `self.translate[color[0]]`. -/
def band1of (cfg : VTConfig) (index : ℕ) : String :=
  cfg.translate (((cfg.colors.getD index "").toList).getD 0 ' ')

/-- Band two of a color: `self.translate[color[2]]`. -/
def band2of (cfg : VTConfig) (index : ℕ) : String :=
  cfg.translate (((cfg.colors.getD index "").toList).getD 2 ' ')

/-- Edge `i` of `np.linspace(a, b, n)`. -/
def histEdge (a b : ℚ) (n : ℕ) (i : ℕ) : ℚ :=
  a + (b - a) * i / ((n : ℚ) - 1)

/-- Membership of a value in histogram bin `i` of `np.histogram` with edges
`np.linspace(a, b, n)`: half-open `[e i, e (i+1))`, except the last bin
(`i = n - 2`), which is closed on the right. -/
def inBin (a b : ℚ) (n : ℕ) (i : ℕ) (v : PyFloat) : Bool :=
  pyLe (.fin (histEdge a b n i)) v &&
    (if i + 2 = n then pyLe v (.fin (histEdge a b n (i + 1)))
     else pyLt v (.fin (histEdge a b n (i + 1))))

/-- Raw `np.histogram` counts over the `n - 1` bins. -/
def histCounts (a b : ℚ) (n : ℕ) (vals : List PyFloat) : List ℕ :=
  (List.range (n - 1)).map (fun i => vals.countP (fun v => inBin a b n i v))

/-- The bin centers `binctr = (bins[1:] + bins[:-1])/2`. -/
def binctrList (a b : ℚ) (n : ℕ) : List ℚ :=
  (List.range (n - 1)).map (fun i => (histEdge a b n (i + 1) + histEdge a b n i) / 2)

/-- Lines 359-363 of `color_distribution`: histogram the value array and
normalize by the total count (`hist = hist/np.sum(hist)`; numpy's 0/0 is
NaN).  Returns (bin centers, normalized histogram). -/
def histogramStep (a b : ℚ) (n : ℕ) (vals : List PyFloat) :
    List ℚ × List PyFloat :=
  let counts := histCounts a b n vals
  let total := counts.sum
  let hist := counts.map
    (fun (c : ℕ) => if total = 0 then PyFloat.nan else .fin ((c : ℚ) / (total : ℚ)))
  (binctrList a b n, hist)

/-- The magnitude sanity condition `(mag>0) & (mag<50)`. -/
def saneMag (m : PyFloat) : Bool :=
  pyLt (.fin 0) m && pyLt m (.fin 50)

/-- The `color_distribution` method (lines 304-365): fetch both bands in the redshift
window, abort with a logged warning when no row is returned or no row
survives the magnitude mask, else histogram the magnitude difference.
Returns the optional (bin centers, histogram) plus the lines appended to
`log.txt`. -/
def color_distribution (gc : GalaxyCatalog) (cfg : VTConfig)
    (band1 band2 : String) (a b : ℚ) (n : ℕ) :
    Option (List ℚ × List PyFloat) × List String :=
  let filters : Filters := [("zlo", cfg.zlo), ("zhi", cfg.zhi)]
  let mag1 := gc.getQuantities band1 filters
  let mag2 := gc.getQuantities band2 filters
  if mag1.length = 0 then
    (none, ["No object in the redshift range!\n"])
  else
    let mask :=
      match cfg.limiting with
      | some (lb, lm) =>
          let magLim := gc.getQuantities (cfg.translate lb) filters
          List.zipWith (fun ml m12 => pyLt ml lm && saneMag m12.1 && saneMag m12.2)
            magLim (mag1.zip mag2)
      | none =>
          List.zipWith (fun m1 m2 => saneMag m1 && saneMag m2) mag1 mag2
    let mag1m := maskSelect mag1 mask
    let mag2m := maskSelect mag2 mask
    if mask.countP (fun x => x) = 0 then
      (none, ["No object in the magnitude range!\n"])
    else
      let diffs := List.zipWith pySub mag1m mag2m
      (some (histogramStep a b n diffs), [])

/-- The `np.argmax` of a 1-D boolean array: index of the first `True`, and 0
when every entry is `False` (the first occurrence of the maximum). -/
def argmaxBool (l : List Bool) : ℕ :=
  if l.any (fun x => x) then l.findIdx (fun x => x) else 0

/-- Quantile extraction by first-crossing lookup:
`binctr[np.argmax(cdf > threshold)]` (lines 241-251). -/
def quantileOf (binctr : List ℚ) (cdf : List PyFloat) (threshold : ℚ) : Option ℚ :=
  binctr[argmaxBool (cdf.map (fun c => pyLt (.fin threshold) c))]?

/-- The five recorded quantile thresholds, in row order
`[m95min, m68min, mmedian, m68max, m95max]`. -/
def quantThresholds : List ℚ := [0.025, 0.16, 0.5, 0.84, 0.975]

/-- The warning written when a configured color's bands are absent from the
catalog's quantity table (lines 191-196). -/
def missingMsg (band1 band2 : String) : String :=
  "galaxy catalog does not have `" ++ band1 ++
    ("` and/or `" ++ band2 ++ "` quantity, skipping the rest of the validation test.\n")

/-- Observable state accumulated by the per-color loop of
`run_validation_test`: the lines appended to `log.txt`, the `no_cdf_q`
flag, the indices of colors that produced a valid CDF comparison, and the
two quantile tables (initially `np.zeros`, modelled as `none` entries). -/
structure RunState where
  logTxt : List String
  noCdfQ : Bool
  comparedIdx : List ℕ
  catalogQuantiles : List (List (Option ℚ))
  validationQuantiles : List (List (Option ℚ))
deriving DecidableEq, Repr

/-- One iteration of the per-color loop of `run_validation_test`
(lines 157-284): fetch the reference histogram and its CDF, skip the color
(with a logged warning) when a band is missing, return `SKIPPED` for the
whole run (`Except.error`) when `color_distribution` yields no histogram,
else record the comparison and the five quantiles of each CDF. -/
def processColor (gc : GalaxyCatalog) (cfg : VTConfig) (s : RunState)
    (index : ℕ) : Except RunState RunState :=
  let band1 := band1of cfg index
  let band2 := band2of cfg index
  let od := cfg.vsummary index
  let ocdf := cdfOf od.2
  if band1 ∈ gc.quantities ∧ band2 ∈ gc.quantities then
    match color_distribution gc cfg band1 band2 (-1) 4 2000 with
    | (none, lg) => .error { s with logTxt := s.logTxt ++ lg }
    | (some md, lg) =>
        let mcdf := cdfOf md.2
        .ok { s with
          logTxt := s.logTxt ++ lg
          noCdfQ := false
          comparedIdx := s.comparedIdx ++ [index]
          catalogQuantiles := s.catalogQuantiles.set index
            (quantThresholds.map (fun t => quantileOf md.1 mcdf t))
          validationQuantiles := s.validationQuantiles.set index
            (quantThresholds.map (fun t => quantileOf od.1 ocdf t)) }
  else
    .ok { s with logTxt := s.logTxt ++ [missingMsg band1 band2] }

/-- The per-color loop: `continue` on `.ok`, early `return` on `.error`. -/
def runColors (gc : GalaxyCatalog) (cfg : VTConfig) :
    List ℕ → RunState → Except RunState RunState
  | [], s => .ok s
  | i :: rest, s =>
      match processColor gc cfg s i with
      | .error s2 => .error s2
      | .ok s2 => runColors gc cfg rest s2

/-- The value returned by `run_validation_test`. -/
structure TestResult where
  status : String
  msg : String
deriving DecidableEq, Repr

/-- Initial loop state: empty log, `no_cdf_q = True`, zeroed quantile
tables of shape `[len(colors), 5]`. -/
def initState (cfg : VTConfig) : RunState :=
  { logTxt := []
    noCdfQ := true
    comparedIdx := []
    catalogQuantiles := List.replicate cfg.colors.length (List.replicate 5 none)
    validationQuantiles := List.replicate cfg.colors.length (List.replicate 5 none) }

/-- The `run_validation_test` method (lines 118-301): run the per-color loop; an early
abort returns `TestResult('SKIPPED', '')`, a completed loop returns
`TestResult('PASSED' if not no_cdf_q else 'SKIPPED', '')`. -/
def run_validation_test (gc : GalaxyCatalog) (cfg : VTConfig) :
    TestResult × RunState :=
  match runColors gc cfg (List.range cfg.colors.length) (initState cfg) with
  | .error s => ({ status := "SKIPPED", msg := "" }, s)
  | .ok s => ({ status := if s.noCdfQ then "SKIPPED" else "PASSED", msg := "" }, s)

/-- The Python dict `d1 = {'x': mbinctr, 'y': mcdf}` (lines 226, 231). -/
def mkD1 (mbinctr : List ℚ) (mcdf : List PyFloat) : List (String × List PyFloat) :=
  [("x", mbinctr.map PyFloat.fin), ("y", mcdf)]

/-- Python `len` of a dict: the number of (distinct) keys. -/
def pyDictLen (d : List (String × List PyFloat)) : ℕ :=
  ((d.map Prod.fst).dedup).length

/-- The argument of `np.sqrt` in the statistic scaling
`L2 = L2*np.sqrt(len(d1))`, `L1 = L1*np.sqrt(len(d1))` (lines 229, 234):
`len(d1)` for the dict `d1 = {'x': mbinctr, 'y': mcdf}`. -/
def scaleArg (mbinctr : List ℚ) (mcdf : List PyFloat) : ℕ :=
  pyDictLen (mkD1 mbinctr mcdf)

/-- Whether both translated bands of color `index` are present in the
catalog's quantity table (the condition of line 189). -/
abbrev bandsPresent (gc : GalaxyCatalog) (cfg : VTConfig) (index : ℕ) : Prop :=
  band1of cfg index ∈ gc.quantities ∧ band2of cfg index ∈ gc.quantities

/-- Whether `color_distribution` returns no histogram for color `index`
(the empty-result condition of line 203). -/
abbrev colorEmpty (gc : GalaxyCatalog) (cfg : VTConfig) (index : ℕ) : Prop :=
  (color_distribution gc cfg (band1of cfg index) (band2of cfg index) (-1) 4 2000).1 = none

/-!
## Concrete instances used by witnesses and counterexamples
-/

/-- A translation table mapping the four test band letters to catalog
quantity names. -/
def translateABCD : Char → String := fun c =>
  if c = 'a' then "A" else if c = 'b' then "B"
  else if c = 'c' then "C" else if c = 'd' then "D" else "?"

/-- Catalog for the C1 counterexample: bands A/B carry a nonsensical
magnitude pair for the single row, bands C/D a sane one. -/
def gcC1 : GalaxyCatalog :=
  { quantities := ["A", "B", "C", "D"]
    getQuantities := fun name _ =>
      if name = "A" then [.fin (-5)] else if name = "B" then [.fin 1]
      else if name = "C" then [.fin 20] else if name = "D" then [.fin 19] else [] }

/-- Configuration for the C1 counterexample: color "a-b" (which hits the
empty magnitude range) followed by color "c-d" (which would compare). -/
def cfgC1 : VTConfig :=
  { colors := ["a-b", "c-d"]
    translate := translateABCD
    zlo := .fin 0
    zhi := .fin 1
    limiting := none
    vsummary := fun _ => ([0], [.fin 1]) }

/-- The same configuration restricted to the second color only. -/
def cfgC1single : VTConfig := { cfgC1 with colors := ["c-d"] }

/-- Catalog for the C1 witness: both bands present but no row in the
redshift window. -/
def gcC1w : GalaxyCatalog :=
  { quantities := ["A", "B"], getQuantities := fun _ _ => [] }

/-- Configuration for the C1 witness: the single color "a-b". -/
def cfgC1w : VTConfig :=
  { colors := ["a-b"]
    translate := translateABCD
    zlo := .fin 0
    zhi := .fin 1
    limiting := none
    vsummary := fun _ => ([0], [.fin 1]) }

/-- Catalog for the C2 counterexample: bands A/B carry a sane magnitude
pair (difference 1, inside the binning range), bands C/D a nonsensical
one. -/
def gcC2 : GalaxyCatalog :=
  { quantities := ["A", "B", "C", "D"]
    getQuantities := fun name _ =>
      if name = "A" then [.fin 20] else if name = "B" then [.fin 19]
      else if name = "C" then [.fin (-5)] else if name = "D" then [.fin 1] else [] }

/-- Configuration for the C2 counterexample: the valid color "a-b" followed
by the empty color "c-d". -/
def cfgC2 : VTConfig :=
  { colors := ["a-b", "c-d"]
    translate := translateABCD
    zlo := .fin 0
    zhi := .fin 1
    limiting := none
    vsummary := fun _ => ([0], [.fin 1]) }

/-- Row of the C4 witness catalog that passes all filters. -/
def rowC4a : Row := fun s =>
  if s = "x" then .fin 1 else if s = "y" then .fin 2 else if s = "z" then .fin 3
  else if s = "redshift" then .fin (1/2) else .fin 0

/-- Row of the C4 witness catalog with a non-finite y coordinate. -/
def rowC4b : Row := fun s =>
  if s = "x" then .fin 1 else if s = "y" then .nan else if s = "z" then .fin 3
  else if s = "redshift" then .fin (1/2) else .fin 0

/-- Row of the C4 witness catalog below the zlo threshold. -/
def rowC4c : Row := fun s =>
  if s = "x" then .fin 1 else if s = "y" then .fin 2 else if s = "z" then .fin 3
  else if s = "redshift" then .fin (1/20) else .fin 0

/-- The C4 witness catalog. -/
def catC4 : List Row := [rowC4a, rowC4b, rowC4c]

/-- The C4 witness filter set: a zlo threshold plus an unrecognized key. -/
def fC4 : Filters := [("zlo", .fin (1/10)), ("junk", .fin 7)]

/-- Catalog for the C8 counterexample: one row whose sane magnitudes differ
by 30, outside the binning range [-1, 4]. -/
def gcC8 : GalaxyCatalog :=
  { quantities := ["A", "B"]
    getQuantities := fun name _ =>
      if name = "A" then [.fin 40] else if name = "B" then [.fin 10] else [] }

/-- Configuration for the C8 counterexample. -/
def cfgC8 : VTConfig :=
  { colors := ["a-b"]
    translate := translateABCD
    zlo := .fin 0
    zhi := .fin 1
    limiting := none
    vsummary := fun _ => ([0], [.fin 1]) }

/-- Catalog for the C9 witness: no quantities at all. -/
def gcC9 : GalaxyCatalog :=
  { quantities := [], getQuantities := fun _ _ => [] }

/-- Configuration for the C9 witness: one color whose bands translate to a
quantity absent from the catalog. -/
def cfgC9 : VTConfig :=
  { colors := ["a-b"]
    translate := fun _ => "Q"
    zlo := .fin 0
    zhi := .fin 1
    limiting := none
    vsummary := fun _ => ([0], [.fin 1]) }

/-!
## Helper lemmas
-/

theorem zipWith_map_same {α β γ δ : Type} (f : β → γ → δ) (g : α → β) (h : α → γ)
    (l : List α) :
    List.zipWith f (l.map g) (l.map h) = l.map (fun x => f (g x) (h x)) := by
  induction l with
  | nil => rfl
  | cons x t ih => simp [ih]

theorem maskSelect_map {α β : Type} (g : α → β) (p : α → Bool) (l : List α) :
    maskSelect (l.map g) (l.map p) = (l.filter p).map g := by
  induction l with
  | nil => rfl
  | cons x t ih =>
    simp only [List.map_cons, maskSelect, List.zip_cons_cons, List.filterMap_cons,
      List.filter_cons] at *
    cases hp : p x <;> simp [hp, ih]

theorem lookup_eq_none_keys {β : Type} (l : List (String × β)) (k : String)
    (h : k ∉ l.map Prod.fst) : l.lookup k = none := by
  induction l with
  | nil => rfl
  | cons kv t ih =>
    simp only [List.map_cons, List.mem_cons] at h
    push_neg at h
    rw [List.lookup_cons]
    have hk : (k == kv.1) = false := beq_eq_false_iff_ne.mpr h.1
    simp [hk, ih h.2]

theorem lookup_mem {α β : Type} [BEq α] [LawfulBEq α] (l : List (α × β)) (k : α)
    (v : β) (h : l.lookup k = some v) : (k, v) ∈ l := by
  induction l with
  | nil => simp [List.lookup] at h
  | cons kv t ih =>
    obtain ⟨k1, v1⟩ := kv
    rw [List.lookup_cons] at h
    cases hk : k == k1 with
    | true =>
      rw [hk] at h
      simp only [Option.some.injEq] at h
      obtain rfl := eq_of_beq hk
      subst h
      exact List.mem_cons_self _ _
    | false =>
      rw [hk] at h
      exact List.mem_cons_of_mem _ (ih h)

theorem filterFold_eq (f : Filters) (z : PyFloat) (b : Bool)
    (h : (f.map Prod.fst).Nodup) :
    filterFold f z b =
      ((b &&
        (match f.lookup "zlo" with | some v => pyLt v z | none => true)) &&
        (match f.lookup "zhi" with | some v => pyLt z v | none => true)) := by
  induction f generalizing b with
  | nil => simp [filterFold, List.lookup]
  | cons kv t ih =>
    obtain ⟨k, v⟩ := kv
    rw [List.map_cons, List.nodup_cons] at h
    obtain ⟨hknot, hnd⟩ := h
    have hstep : filterFold ((k, v) :: t) z b =
        filterFold t z
          (if k = "zlo" then b && pyLt v z
           else if k = "zhi" then b && pyLt z v else b) := by
      simp [filterFold]
    by_cases hk1 : k = "zlo"
    · subst hk1
      have hlz : t.lookup "zlo" = none := lookup_eq_none_keys t _ hknot
      rw [hstep, if_pos rfl, ih _ hnd, hlz]
      rw [List.lookup_cons, List.lookup_cons]
      simp [Bool.and_assoc, Bool.and_comm, Bool.and_left_comm]
    · by_cases hk2 : k = "zhi"
      · subst hk2
        have hlz : t.lookup "zhi" = none := lookup_eq_none_keys t _ hknot
        rw [hstep, if_neg hk1, if_pos rfl, ih _ hnd, hlz]
        rw [List.lookup_cons, List.lookup_cons]
        have h1 : ("zlo" == "zhi") = false := by decide
        have h2 : ("zhi" == "zhi") = true := by decide
        rw [h1, h2]
        simp [Bool.and_assoc, Bool.and_comm, Bool.and_left_comm]
      · rw [hstep, if_neg hk1, if_neg hk2, ih _ hnd]
        rw [List.lookup_cons, List.lookup_cons]
        have h1 : ("zlo" == k) = false := beq_eq_false_iff_ne.mpr (Ne.symm hk1)
        have h2 : ("zhi" == k) = false := beq_eq_false_iff_ne.mpr (Ne.symm hk2)
        rw [h1, h2]

theorem rowMask_eq_spec (f : Filters) (r : Row) (h : (f.map Prod.fst).Nodup) :
    rowMask f r = specRowPred f r := by
  rw [rowMask, specRowPred, filterFold_eq _ _ _ h]
  simp [Bool.and_assoc]

theorem get_stored_eq_filter (cat : List Row) (q : String) (f : Filters)
    (h : (f.map Prod.fst).Nodup) :
    get_stored_property cat q f = (cat.filter (specRowPred f)).map (fun r => r q) := by
  rw [get_stored_property, construct_mask, maskSelect_map]
  congr 1
  exact List.filter_congr (fun r _ => rowMask_eq_spec f r h)

theorem filterFold_filter_recog (f : Filters) (z : PyFloat) (b : Bool) :
    filterFold (f.filter (fun kv => kv.1 == "zlo" || kv.1 == "zhi")) z b =
      filterFold f z b := by
  induction f generalizing b with
  | nil => rfl
  | cons kv t ih =>
    obtain ⟨k, v⟩ := kv
    by_cases hk1 : k = "zlo"
    · subst hk1
      simp only [List.filter_cons]
      norm_num
      rw [filterFold, filterFold, List.foldl_cons, List.foldl_cons]
      exact ih _
    · by_cases hk2 : k = "zhi"
      · subst hk2
        simp only [List.filter_cons]
        norm_num
        rw [filterFold, filterFold, List.foldl_cons, List.foldl_cons]
        exact ih _
      · have hnp : ¬(((k, v).1 == "zlo" || (k, v).1 == "zhi") = true) := by
          rw [beq_eq_false_iff_ne.mpr hk1, beq_eq_false_iff_ne.mpr hk2]
          simp
        simp only [List.filter_cons]
        rw [if_neg hnp, ih]
        simp [filterFold, hk1, hk2]

theorem rowMask_filter_recog (f : Filters) (r : Row) :
    rowMask (f.filter (fun kv => kv.1 == "zlo" || kv.1 == "zhi")) r = rowMask f r := by
  rw [rowMask, rowMask, filterFold_filter_recog]

theorem construct_mask_filter_recog (cat : List Row) (f : Filters) :
    construct_mask cat (f.filter (fun kv => kv.1 == "zlo" || kv.1 == "zhi")) =
      construct_mask cat f := by
  rw [construct_mask, construct_mask]
  exact List.map_congr_left (fun r _ => rowMask_filter_recog f r)

theorem get_quantities_filter_recog (dm : Cosmology → PyFloat → PyFloat)
    (cat : List Row) (q : String) (f : Filters) :
    get_quantities dm cat q (f.filter (fun kv => kv.1 == "zlo" || kv.1 == "zhi")) =
      get_quantities dm cat q f := by
  rw [get_quantities, get_quantities]
  cases quantitiesList.lookup q with
  | none => rfl
  | some kind =>
    cases kind with
    | stored =>
      simp only [get_stored_property, construct_mask_filter_recog]
    | derived =>
      rw [get_derived_property, get_derived_property]
      cases derivedList.lookup q with
      | none => rfl
      | some entry =>
        simp only [construct_mask_filter_recog]

theorem maskSelect_length (cat : List Row) (g : Row → PyFloat) (f : Filters)
    (h : (f.map Prod.fst).Nodup) :
    (maskSelect (cat.map g) (construct_mask cat f)).length =
      cat.countP (specRowPred f) := by
  rw [construct_mask, maskSelect_map, List.length_map,
    List.filter_congr (fun r _ => rowMask_eq_spec f r h),
    List.countP_eq_length_filter]

theorem derivedList_source_shapes :
    ∀ e ∈ derivedList,
      (e.2.2.2 = Combinator.multiply → e.2.1.length = 1) ∧
      (e.2.2.2 = Combinator.addDistanceModulus → e.2.1.length = 2) := by
  decide

theorem get_quantities_length (dm : Cosmology → PyFloat → PyFloat)
    (cat : List Row) (q : String) (f : Filters) (arr : List PyFloat)
    (h : (f.map Prod.fst).Nodup) (hq : get_quantities dm cat q f = some arr) :
    arr.length = cat.countP (specRowPred f) := by
  rw [get_quantities] at hq
  cases hk : quantitiesList.lookup q with
  | none => rw [hk] at hq; cases hq
  | some kind =>
    rw [hk] at hq
    cases kind with
    | stored =>
      simp only [Option.some.injEq] at hq
      subst hq
      rw [get_stored_property, maskSelect_length cat _ f h]
    | derived =>
      rw [get_derived_property] at hq
      cases hd : derivedList.lookup q with
      | none => rw [hd] at hq; cases hq
      | some entry =>
        rw [hd] at hq
        obtain ⟨srcs, scalars, comb⟩ := entry
        simp only [Option.some.injEq] at hq
        subst hq
        have hshape := derivedList_source_shapes _ (lookup_mem _ _ _ hd)
        cases comb with
        | multiply =>
          obtain ⟨s0, hs0⟩ := List.length_eq_one.mp (hshape.1 rfl)
          subst hs0
          simp only [applyCombinator, List.map_cons, List.map_nil, List.headD]
          rw [List.length_map, maskSelect_length cat _ f h]
        | addDistanceModulus =>
          obtain ⟨s0, s1, hs⟩ := List.length_eq_two.mp (hshape.2 rfl)
          subst hs
          simp only [applyCombinator, List.map_cons, List.map_nil, List.headD,
            List.getD_cons_succ, List.getD_cons_zero, List.length_zipWith]
          rw [maskSelect_length cat _ f h, maskSelect_length cat _ f h]
          exact min_self _

theorem get_quantities_addDM (dm : Cosmology → PyFloat → PyFloat) (cat : List Row)
    (f : Filters) (qname rest : String)
    (hq : quantitiesList.lookup qname = some .derived)
    (hd : derivedList.lookup qname = some ([rest, "redshift"], [], .addDistanceModulus)) :
    get_quantities dm cat qname f =
      some ((cat.filter (rowMask f)).map
        (fun r => pyAdd (r rest) (dm MB2cosmology (r "redshift")))) := by
  rw [get_quantities, hq, get_derived_property, hd]
  simp only [applyCombinator, List.map_cons, List.map_nil, List.headD,
    List.getD_cons_succ, List.getD_cons_zero]
  rw [construct_mask, maskSelect_map, maskSelect_map, zipWith_map_same]

theorem get_quantities_multiply (dm : Cosmology → PyFloat → PyFloat) (cat : List Row)
    (f : Filters) (qname src : String) (c : ℚ)
    (hq : quantitiesList.lookup qname = some .derived)
    (hd : derivedList.lookup qname = some ([src], [c], .multiply)) :
    get_quantities dm cat qname f =
      some ((cat.filter (rowMask f)).map (fun r => pyMul (r src) (.fin c))) := by
  rw [get_quantities, hq, get_derived_property, hd]
  simp only [applyCombinator, List.map_cons, List.map_nil, List.headD,
    List.getD_cons_zero]
  rw [construct_mask, maskSelect_map, List.map_map]
  rfl

/-!
## Claim theorems
-/

/-- C4: for every filter set with distinct keys, `get_quantities` returns a
1-D array whose length equals the number of catalog rows with finite x, y, z
coordinates satisfying `zlo < redshift` when key "zlo" is present and
`redshift < zhi` when key "zhi" is present; for stored quantities the array
is exactly that row subset's column values in stored row order; and filter
keys other than "zlo" and "zhi" have no effect on the result. -/
theorem C4_get_quantities_filtering (dm : Cosmology → PyFloat → PyFloat)
    (cat : List Row) (q : String) (f : Filters) (arr : List PyFloat)
    (hnd : (f.map Prod.fst).Nodup) :
    (get_quantities dm cat q f = some arr →
      arr.length = cat.countP (specRowPred f)) ∧
    (quantitiesList.lookup q = some .stored →
      get_quantities dm cat q f =
        some ((cat.filter (specRowPred f)).map (fun r => r q))) ∧
    get_quantities dm cat q (f.filter (fun kv => kv.1 == "zlo" || kv.1 == "zhi")) =
      get_quantities dm cat q f := by
  refine ⟨fun hsome => get_quantities_length dm cat q f arr hnd hsome, fun hst => ?_,
    get_quantities_filter_recog dm cat q f⟩
  rw [get_quantities, hst, get_stored_eq_filter cat q f hnd]

/-- Witness for C4 at a concrete three-row catalog and the filter set
`{"zlo": 0.1, "junk": 7}`: only the first row passes (the second has a
non-finite y, the third fails the zlo cut), and the unrecognized key is
ignored. -/
theorem C4_witness :
    (fC4.map Prod.fst).Nodup ∧
    ((get_quantities (fun _ _ => .fin 0) catC4 "redshift" fC4 =
        some [PyFloat.fin (1/2)] →
      ([PyFloat.fin (1/2)] : List PyFloat).length = catC4.countP (specRowPred fC4)) ∧
    (quantitiesList.lookup "redshift" = some .stored →
      get_quantities (fun _ _ => .fin 0) catC4 "redshift" fC4 =
        some ((catC4.filter (specRowPred fC4)).map (fun r => r "redshift"))) ∧
    get_quantities (fun _ _ => .fin 0) catC4 "redshift"
        (fC4.filter (fun kv => kv.1 == "zlo" || kv.1 == "zhi")) =
      get_quantities (fun _ _ => .fin 0) catC4 "redshift" fC4) :=
  ⟨by decide, C4_get_quantities_filtering (fun _ _ => .fin 0) catC4 "redshift" fC4
    [PyFloat.fin (1/2)] (by decide)⟩

/-- C6: for every row passing the filter mask, each derived observed-frame
SDSS magnitude equals that row's rest-frame magnitude plus the distance
modulus (the abstract astropy function `dm`) evaluated at that row's
redshift under the reader's cosmology, which is flat ΛCDM with H0 = 70.2
and Om0 = 0.275. -/
theorem C6_observed_magnitudes (dm : Cosmology → PyFloat → PyFloat)
    (cat : List Row) (f : Filters) :
    get_quantities dm cat "SDSS_u:observed:" f =
      some ((cat.filter (rowMask f)).map
        (fun r => pyAdd (r "SDSS_u:rest:") (dm MB2cosmology (r "redshift")))) ∧
    get_quantities dm cat "SDSS_g:observed:" f =
      some ((cat.filter (rowMask f)).map
        (fun r => pyAdd (r "SDSS_g:rest:") (dm MB2cosmology (r "redshift")))) ∧
    get_quantities dm cat "SDSS_r:observed:" f =
      some ((cat.filter (rowMask f)).map
        (fun r => pyAdd (r "SDSS_r:rest:") (dm MB2cosmology (r "redshift")))) ∧
    get_quantities dm cat "SDSS_i:observed:" f =
      some ((cat.filter (rowMask f)).map
        (fun r => pyAdd (r "SDSS_i:rest:") (dm MB2cosmology (r "redshift")))) ∧
    get_quantities dm cat "SDSS_z:observed:" f =
      some ((cat.filter (rowMask f)).map
        (fun r => pyAdd (r "SDSS_z:rest:") (dm MB2cosmology (r "redshift")))) ∧
    MB2cosmology = { H0 := 70.2, Om0 := 0.275 } :=
  ⟨get_quantities_addDM dm cat f _ _ (by decide) (by rfl),
   get_quantities_addDM dm cat f _ _ (by decide) (by rfl),
   get_quantities_addDM dm cat f _ _ (by decide) (by rfl),
   get_quantities_addDM dm cat f _ _ (by decide) (by rfl),
   get_quantities_addDM dm cat f _ _ (by decide) (by rfl),
   by simp only [MB2cosmology, MB2h, Cosmology.mk.injEq]; norm_num⟩

/-- C7: for every row passing the filter mask, the derived "mass" equals
the stored "mass" column times 10^10/h and the derived "positionX" equals
the stored "x" column times 10^-3/h, with h = 0.702. -/
theorem C7_unit_conversions (dm : Cosmology → PyFloat → PyFloat)
    (cat : List Row) (f : Filters) :
    get_quantities dm cat "mass" f =
      some ((cat.filter (rowMask f)).map
        (fun r => pyMul (r "mass") (.fin (1e10 / MB2h)))) ∧
    get_quantities dm cat "positionX" f =
      some ((cat.filter (rowMask f)).map
        (fun r => pyMul (r "x") (.fin (1e-3 / MB2h)))) ∧
    (1e10 / MB2h : ℚ) = 10 ^ 10 / 0.702 ∧
    (1e-3 / MB2h : ℚ) = (1 / 1000) / 0.702 ∧
    MB2h = 0.702 :=
  ⟨get_quantities_multiply dm cat f _ _ _ (by decide) (by rfl),
   get_quantities_multiply dm cat f _ _ _ (by decide) (by rfl),
   by norm_num [MB2h], by norm_num [MB2h], by norm_num [MB2h]⟩

/-- C3: the statistics recorded in `summary.txt` are scaled by
`np.sqrt(len(d1))` where `d1` is the dict `{'x': mbinctr, 'y': mcdf}`, so
the scale factor is the constant √2 whatever the number of compared
samples; with the validator's 1999 bins the factor differs from the √N of
the claim.  (`scaleArg` is the `len(d1)` argument of `np.sqrt` in
lines 229 and 234; the scaling is applied before the values are written in
lines 259-265.) -/
theorem C3_sqrt_scaling (raw : ℝ) (mbinctr : List ℚ) (mcdf : List PyFloat) :
    raw * Real.sqrt (scaleArg mbinctr mcdf) = raw * Real.sqrt 2 ∧
    scaleArg mbinctr mcdf = 2 ∧
    (mbinctr.length = 1999 →
      Real.sqrt (scaleArg mbinctr mcdf) ≠ Real.sqrt (mbinctr.length)) := by
  have h2 : scaleArg mbinctr mcdf = 2 := rfl
  refine ⟨by rw [h2]; norm_num, h2, fun hlen => ?_⟩
  rw [h2, hlen]
  have hlt : Real.sqrt 2 < Real.sqrt 1999 :=
    Real.sqrt_lt_sqrt (by norm_num) (by norm_num)
  have c2 : ((2 : ℕ) : ℝ) = (2 : ℝ) := by norm_num
  have c1999 : ((1999 : ℕ) : ℝ) = (1999 : ℝ) := by norm_num
  rw [c2, c1999]
  exact ne_of_lt hlt

/-- Witness for C3 at the validator's actual bin centers (1999 bins): the
scale factor used is √2, not √1999. -/
theorem C3_sqrt_scaling_witness :
    (binctrList (-1) 4 2000).length = 1999 ∧
    Real.sqrt (scaleArg (binctrList (-1) 4 2000) []) ≠
      Real.sqrt ((binctrList (-1) 4 2000).length) :=
  ⟨by simp [binctrList],
   (C3_sqrt_scaling 0 (binctrList (-1) 4 2000) []).2.2 (by simp [binctrList])⟩

theorem histEdge_val (i : ℕ) :
    histEdge (-1) 4 2000 i = -1 + 5 * (i : ℚ) / 1999 := by
  rw [histEdge]
  norm_num

theorem histEdge_le_iff (i : ℕ) (q : ℚ) :
    (histEdge (-1) 4 2000 i ≤ q) ↔ 5 * (i : ℚ) ≤ (q + 1) * 1999 := by
  rw [histEdge_val]
  rw [show ((-1 : ℚ) + 5 * (i : ℚ) / 1999 ≤ q) ↔ (5 * (i : ℚ) / 1999 ≤ q + 1) from
    ⟨fun h => by linarith, fun h => by linarith⟩]
  rw [div_le_iff₀ (by norm_num : (0:ℚ) < 1999)]

theorem lt_histEdge_iff (i : ℕ) (q : ℚ) :
    (q < histEdge (-1) 4 2000 i) ↔ (q + 1) * 1999 < 5 * (i : ℚ) := by
  rw [histEdge_val]
  rw [show (q < (-1 : ℚ) + 5 * (i : ℚ) / 1999) ↔ (q + 1 < 5 * (i : ℚ) / 1999) from
    ⟨fun h => by linarith, fun h => by linarith⟩]
  rw [lt_div_iff₀ (by norm_num : (0:ℚ) < 1999)]

theorem exists_bin (q : ℚ) (h1 : -1 ≤ q) (h2 : q ≤ 4) :
    ∃ i, i < 1999 ∧ inBin (-1) 4 2000 i (.fin q) = true := by
  by_cases hq4 : q = 4
  · refine ⟨1998, by norm_num, ?_⟩
    subst hq4
    rw [inBin]
    have he1 : histEdge (-1) 4 2000 1998 ≤ 4 := by
      rw [histEdge_le_iff]; norm_num
    have he2 : (4 : ℚ) ≤ histEdge (-1) 4 2000 1999 := by
      rw [histEdge_val]; norm_num
    rw [if_pos (by norm_num : 1998 + 2 = 2000), Bool.and_eq_true]
    exact ⟨decide_eq_true he1, decide_eq_true he2⟩
  · have hlt : q < 4 := lt_of_le_of_ne h2 hq4
    have hk0 : (0 : ℤ) ≤ ⌊(q + 1) * 1999 / 5⌋ := by
      apply Int.le_floor.mpr
      push_cast
      have : (0:ℚ) ≤ q + 1 := by linarith
      positivity
    have hkub : ⌊(q + 1) * 1999 / 5⌋ < 1999 := by
      apply Int.floor_lt.mpr
      push_cast
      rw [div_lt_iff₀ (by norm_num : (0:ℚ) < 5)]
      linarith
    set k : ℤ := ⌊(q + 1) * 1999 / 5⌋ with hkdef
    have hcast : ((k.toNat : ℕ) : ℚ) = (k : ℚ) := by
      exact_mod_cast congrArg (fun z : ℤ => (z : ℚ)) (Int.toNat_of_nonneg hk0)
    have hfl : (k : ℚ) ≤ (q + 1) * 1999 / 5 := Int.floor_le _
    have hfl2 : (q + 1) * 1999 / 5 < (k : ℚ) + 1 := Int.lt_floor_add_one _
    rw [le_div_iff₀ (by norm_num : (0:ℚ) < 5)] at hfl
    rw [div_lt_iff₀ (by norm_num : (0:ℚ) < 5)] at hfl2
    have hle : histEdge (-1) 4 2000 k.toNat ≤ q := by
      rw [histEdge_le_iff, hcast]
      linarith
    have hlt2 : q < histEdge (-1) 4 2000 (k.toNat + 1) := by
      rw [lt_histEdge_iff]
      push_cast [hcast]
      linarith
    refine ⟨k.toNat, by omega, ?_⟩
    rw [inBin]
    by_cases hlast : k.toNat + 2 = 2000
    · rw [if_pos hlast, Bool.and_eq_true]
      exact ⟨decide_eq_true hle, decide_eq_true (le_of_lt hlt2)⟩
    · rw [if_neg hlast, Bool.and_eq_true]
      exact ⟨decide_eq_true hle, decide_eq_true hlt2⟩

theorem inBin_false_of_four_lt (i : ℕ) (hi : i < 1999) (q : ℚ) (hq : 4 < q) :
    inBin (-1) 4 2000 i (.fin q) = false := by
  rw [inBin]
  have hedge : histEdge (-1) 4 2000 (i + 1) ≤ 4 := by
    rw [histEdge_le_iff]
    push_cast
    have : (i : ℚ) + 1 ≤ 1999 := by exact_mod_cast Nat.succ_le_of_lt hi
    linarith
  by_cases hlast : i + 2 = 2000
  · rw [if_pos hlast]
    have hnot : ¬ (q ≤ histEdge (-1) 4 2000 (i + 1)) := by linarith
    rw [Bool.and_eq_false_iff]
    right
    exact decide_eq_false hnot
  · rw [if_neg hlast]
    have hnot : ¬ (q < histEdge (-1) 4 2000 (i + 1)) := by linarith
    rw [Bool.and_eq_false_iff]
    right
    exact decide_eq_false hnot

theorem foldl_pyAdd_fin (l : List ℚ) (a : ℚ) :
    List.foldl pyAdd (.fin a) (l.map PyFloat.fin) = .fin (a + l.sum) := by
  induction l generalizing a with
  | nil => simp
  | cons x t ih =>
    simp only [List.map_cons, List.foldl_cons]
    rw [show pyAdd (.fin a) (.fin x) = .fin (a + x) from rfl, ih, List.sum_cons]
    rw [add_assoc]

theorem pySum_map_fin (l : List ℚ) : pySum (l.map PyFloat.fin) = .fin l.sum := by
  rw [pySum, foldl_pyAdd_fin, zero_add]

theorem pyAdd_nan_left (x : PyFloat) : pyAdd .nan x = .nan := by
  cases x <;> rfl

theorem foldl_pyAdd_nan (l : List PyFloat) : List.foldl pyAdd .nan l = .nan := by
  induction l with
  | nil => rfl
  | cons x t ih => rw [List.foldl_cons, pyAdd_nan_left, ih]

theorem total_pos_of_mem_range (vals : List PyFloat) (q : ℚ)
    (hmem : PyFloat.fin q ∈ vals) (h1 : -1 ≤ q) (h2 : q ≤ 4) :
    (histCounts (-1) 4 2000 vals).sum ≠ 0 := by
  obtain ⟨i, hi, hbin⟩ := exists_bin q h1 h2
  have hcount : 0 < vals.countP (fun v => inBin (-1) 4 2000 i v) :=
    List.countP_pos.mpr ⟨_, hmem, hbin⟩
  have hmem2 : vals.countP (fun v => inBin (-1) 4 2000 i v) ∈
      histCounts (-1) 4 2000 vals := by
    rw [histCounts]
    exact List.mem_map.mpr ⟨i, List.mem_range.mpr (by omega), rfl⟩
  have hle := List.single_le_sum (l := histCounts (-1) 4 2000 vals)
    (fun x _ => Nat.zero_le x) _ hmem2
  omega

theorem cast_div_sum (counts : List ℕ) (T : ℚ) :
    (counts.map (fun (c : ℕ) => ((c : ℚ) / T))).sum = ((counts.sum : ℚ)) / T := by
  induction counts with
  | nil => simp
  | cons x t ih =>
    rw [List.map_cons, List.sum_cons, ih, List.sum_cons]
    push_cast
    rw [add_div]

theorem ratios_sum_eq_one (counts : List ℕ) (hT : counts.sum ≠ 0) :
    (counts.map (fun (c : ℕ) => ((c : ℚ) / (counts.sum : ℚ)))).sum = 1 := by
  rw [cast_div_sum]
  rw [div_self]
  exact_mod_cast hT

theorem histogramStep_snd (a b : ℚ) (n : ℕ) (vals : List PyFloat) :
    (histogramStep a b n vals).2 = (histCounts a b n vals).map
      (fun (c : ℕ) => if (histCounts a b n vals).sum = 0 then PyFloat.nan
        else .fin ((c : ℚ) / ((histCounts a b n vals).sum : ℚ))) := rfl

theorem histogramStep_fst (a b : ℚ) (n : ℕ) (vals : List PyFloat) :
    (histogramStep a b n vals).1 = binctrList a b n := rfl

theorem histogram_eq_ratios (a b : ℚ) (n : ℕ) (vals : List PyFloat)
    (hT : (histCounts a b n vals).sum ≠ 0) :
    (histogramStep a b n vals).2 =
      ((histCounts a b n vals).map
        (fun (c : ℕ) => ((c : ℚ) / ((histCounts a b n vals).sum : ℚ)))).map
          PyFloat.fin := by
  rw [histogramStep_snd, List.map_map]
  apply List.map_congr_left
  intro c _
  simp only [Function.comp_apply, if_neg hT]

theorem histCounts_len (a b : ℚ) (n : ℕ) (vals : List PyFloat) :
    (histCounts a b n vals).length = n - 1 := by
  rw [histCounts, List.length_map, List.length_range]

theorem histogram_all_nan (a b : ℚ) (n : ℕ) (vals : List PyFloat)
    (hT : (histCounts a b n vals).sum = 0) :
    (histogramStep a b n vals).2 = List.replicate (n - 1) PyFloat.nan := by
  rw [histogramStep_snd]
  rw [show (histCounts a b n vals).map
      (fun (c : ℕ) => if (histCounts a b n vals).sum = 0 then PyFloat.nan
        else .fin ((c : ℚ) / ((histCounts a b n vals).sum : ℚ))) =
      (histCounts a b n vals).map (fun (_ : ℕ) => PyFloat.nan) from
    List.map_congr_left (fun c _ => if_pos hT)]
  rw [List.map_const', histCounts_len]

/-- C5 (amended): for every magnitude-difference array containing at least
one value inside the binning range [-1, 4], the normalized histogram of
`color_distribution` sums exactly to 1. -/
theorem C5_hist_normalization (vals : List PyFloat) (q : ℚ)
    (hmem : PyFloat.fin q ∈ vals) (h1 : -1 ≤ q) (h2 : q ≤ 4) :
    pySum (histogramStep (-1) 4 2000 vals).2 = .fin 1 := by
  have hT := total_pos_of_mem_range vals q hmem h1 h2
  rw [histogram_eq_ratios (-1) 4 2000 vals hT, pySum_map_fin, ratios_sum_eq_one _ hT]

/-- Witness for C5 at the one-element difference array [0]. -/
theorem C5_hist_normalization_witness :
    PyFloat.fin 0 ∈ [PyFloat.fin 0] ∧ (-1 : ℚ) ≤ 0 ∧ (0 : ℚ) ≤ 4 ∧
    pySum (histogramStep (-1) 4 2000 [PyFloat.fin 0]).2 = .fin 1 :=
  ⟨by simp, by norm_num, by norm_num,
   C5_hist_normalization [PyFloat.fin 0] 0 (by simp) (by norm_num) (by norm_num)⟩

theorem total_zero_of_all_four_lt (vals : List PyFloat)
    (h : ∀ v ∈ vals, ∃ q : ℚ, v = .fin q ∧ 4 < q) :
    (histCounts (-1) 4 2000 vals).sum = 0 := by
  apply List.sum_eq_zero
  intro x hx
  rw [histCounts] at hx
  obtain ⟨i, hi, rfl⟩ := List.mem_map.mp hx
  rw [List.mem_range] at hi
  apply List.countP_eq_zero.mpr
  intro v hv
  obtain ⟨q, rfl, hq⟩ := h v hv
  rw [inBin_false_of_four_lt i hi q hq]
  exact Bool.false_ne_true

/-- Counterexample to C5 as stated: the non-empty magnitude-difference
array [40 - 10] (from the sane magnitude pair 40, 10, which survives the
0 < mag < 50 filter) lies entirely outside the binning range [-1, 4], so
every bin count is zero and the normalization 0/0 makes every histogram
value NaN; the values sum to NaN, not 1. -/
theorem C5_counterexample :
    pySum (histogramStep (-1) 4 2000 [pySub (.fin 40) (.fin 10)]).2 = PyFloat.nan ∧
    PyFloat.nan ≠ PyFloat.fin 1 := by
  constructor
  · have hT : (histCounts (-1) 4 2000 [pySub (.fin 40) (.fin 10)]).sum = 0 := by
      apply total_zero_of_all_four_lt
      intro v hv
      rw [List.mem_singleton] at hv
      exact ⟨40 - 10, hv, by norm_num⟩
    rw [histogram_all_nan _ _ _ _ hT]
    rw [show (2000 - 1 : ℕ) = 1998 + 1 from rfl, List.replicate_succ]
    rw [pySum, List.foldl_cons, show pyAdd (.fin 0) .nan = .nan from rfl]
    exact foldl_pyAdd_nan _
  · intro h
    cases h

theorem cdfStep_map_fin (a : ℚ) (l : List ℚ) :
    cdfStep (.fin a) (l.map PyFloat.fin) = (qcdfStep a l).map PyFloat.fin := by
  induction l generalizing a with
  | nil => rfl
  | cons x t ih =>
    simp only [List.map_cons, cdfStep, qcdfStep]
    rw [show pyAdd (.fin a) (.fin x) = .fin (a + x) from rfl, ih]

theorem cdfOf_map_fin_cons (h : ℚ) (t : List ℚ) :
    cdfOf ((h :: t).map PyFloat.fin) = (qcdfStep h t).map PyFloat.fin := by
  simp only [List.map_cons, cdfOf]
  exact cdfStep_map_fin h t

theorem qcdfStep_shape (c : ℚ) (l : List ℚ) : ∃ r, qcdfStep c l = c :: r := by
  cases l with
  | nil => exact ⟨[], rfl⟩
  | cons x t => exact ⟨_, rfl⟩

theorem qcdfStep_getLast (c : ℚ) (l : List ℚ) :
    (qcdfStep c l).getLast? = some (c + l.sum) := by
  induction l generalizing c with
  | nil => simp [qcdfStep]
  | cons x t ih =>
    rw [qcdfStep]
    obtain ⟨r, hr⟩ := qcdfStep_shape (c + x) t
    rw [hr, List.getLast?_cons_cons, ← hr, ih, List.sum_cons, add_assoc]

theorem qcdfStep_getD_le (c : ℚ) (l : List ℚ) (hpos : ∀ x ∈ l, 0 ≤ x) (i : ℕ)
    (hi : i + 1 < (qcdfStep c l).length) :
    (qcdfStep c l).getD i 0 ≤ (qcdfStep c l).getD (i + 1) 0 := by
  induction l generalizing c i with
  | nil =>
    rw [qcdfStep] at hi
    simp at hi
  | cons x t ih =>
    rw [qcdfStep] at hi ⊢
    cases i with
    | zero =>
      obtain ⟨r, hr⟩ := qcdfStep_shape (c + x) t
      rw [List.getD_cons_zero, List.getD_cons_succ, hr, List.getD_cons_zero]
      have := hpos x (List.mem_cons_self _ _)
      linarith
    | succ j =>
      rw [List.getD_cons_succ, List.getD_cons_succ]
      apply ih _ (fun y hy => hpos y (List.mem_cons_of_mem _ hy)) j
      rw [List.length_cons] at hi
      omega

theorem getD_map_fin (l : List ℚ) (i : ℕ) (hi : i < l.length) :
    (l.map PyFloat.fin).getD i .nan = .fin (l.getD i 0) := by
  rw [List.getD_eq_getElem?_getD, List.getD_eq_getElem?_getD, List.getElem?_map,
    List.getElem?_eq_getElem hi]
  rfl

/-- C8 (amended): for every histogram the validator produces from a
difference array containing at least one value inside the binning range
[-1, 4], the prefix-sum CDF is non-decreasing bin by bin and its final
value equals exactly 1.  (When no value lies in the range the histogram is
all-NaN and the final CDF value is NaN; see the counterexample.) -/
theorem C8_cdf_monotone_total (vals : List PyFloat) (q : ℚ)
    (hmem : PyFloat.fin q ∈ vals) (h1 : -1 ≤ q) (h2 : q ≤ 4) :
    (∀ i, i + 1 < (cdfOf (histogramStep (-1) 4 2000 vals).2).length →
      pyLe ((cdfOf (histogramStep (-1) 4 2000 vals).2).getD i .nan)
        ((cdfOf (histogramStep (-1) 4 2000 vals).2).getD (i + 1) .nan) = true) ∧
    (cdfOf (histogramStep (-1) 4 2000 vals).2).getLast? = some (.fin 1) := by
  have hT := total_pos_of_mem_range vals q hmem h1 h2
  have hhist := histogram_eq_ratios (-1) 4 2000 vals hT
  have hlen : ((histCounts (-1) 4 2000 vals).map
      (fun (c : ℕ) => ((c : ℚ) / ((histCounts (-1) 4 2000 vals).sum : ℚ)))).length =
      1999 := by
    rw [List.length_map, histCounts_len]
  obtain ⟨r0, rt, hratios⟩ := List.exists_cons_of_ne_nil
    (show ((histCounts (-1) 4 2000 vals).map
      (fun (c : ℕ) => ((c : ℚ) / ((histCounts (-1) 4 2000 vals).sum : ℚ)))) ≠ [] by
      intro hz
      rw [hz] at hlen
      simp at hlen)
  have hpos : ∀ x ∈ r0 :: rt, (0 : ℚ) ≤ x := by
    rw [← hratios]
    intro x hx
    obtain ⟨c, _, rfl⟩ := List.mem_map.mp hx
    exact div_nonneg (Nat.cast_nonneg c) (Nat.cast_nonneg _)
  have hsum : r0 + rt.sum = 1 := by
    have := ratios_sum_eq_one (histCounts (-1) 4 2000 vals) hT
    rw [hratios, List.sum_cons] at this
    exact this
  rw [hhist, hratios, cdfOf_map_fin_cons]
  constructor
  · intro i hi
    rw [List.length_map] at hi
    have hi1 : i < (qcdfStep r0 rt).length := by omega
    have hi2 : i + 1 < (qcdfStep r0 rt).length := hi
    rw [getD_map_fin _ _ hi1, getD_map_fin _ _ hi2]
    exact decide_eq_true
      (qcdfStep_getD_le r0 rt (fun y hy => hpos y (List.mem_cons_of_mem _ hy)) i hi2)
  · rw [List.getLast?_map, qcdfStep_getLast, hsum]
    rfl

/-- Witness for C8 at the one-element difference array [0]. -/
theorem C8_cdf_monotone_total_witness :
    PyFloat.fin 0 ∈ [PyFloat.fin 0] ∧ (-1 : ℚ) ≤ 0 ∧ (0 : ℚ) ≤ 4 ∧
    ((∀ i, i + 1 < (cdfOf (histogramStep (-1) 4 2000 [PyFloat.fin 0]).2).length →
      pyLe ((cdfOf (histogramStep (-1) 4 2000 [PyFloat.fin 0]).2).getD i .nan)
        ((cdfOf (histogramStep (-1) 4 2000 [PyFloat.fin 0]).2).getD (i + 1) .nan)
          = true) ∧
    (cdfOf (histogramStep (-1) 4 2000 [PyFloat.fin 0]).2).getLast? =
      some (.fin 1)) :=
  ⟨by simp, by norm_num, by norm_num,
   C8_cdf_monotone_total [PyFloat.fin 0] 0 (by simp) (by norm_num) (by norm_num)⟩

theorem cdfStep_nan_getLast (l : List PyFloat) :
    (cdfStep .nan l).getLast? = some .nan := by
  induction l with
  | nil => rfl
  | cons x t ih =>
    rw [cdfStep, pyAdd_nan_left]
    obtain ⟨y, r, hr⟩ : ∃ y r, cdfStep PyFloat.nan t = y :: r := by
      cases t <;> exact ⟨_, _, rfl⟩
    rw [hr, List.getLast?_cons_cons, ← hr, ih]

/-- Counterexample to C8 as stated: the validator's `color_distribution`,
fed the one-row catalog whose sane magnitudes are 40 and 10, produces the
histogram of the difference array [40 - 10]; no value lies in the binning
range [-1, 4], every histogram entry is NaN (0/0), and the final CDF value
is NaN rather than 1. -/
theorem C8_counterexample :
    (color_distribution gcC8 cfgC8 "A" "B" (-1) 4 2000).1 =
      some (histogramStep (-1) 4 2000 [pySub (.fin 40) (.fin 10)]) ∧
    (cdfOf (histogramStep (-1) 4 2000 [pySub (.fin 40) (.fin 10)]).2).getLast? =
      some PyFloat.nan ∧
    PyFloat.nan ≠ PyFloat.fin 1 := by
  refine ⟨rfl, ?_, by intro h; cases h⟩
  have hT : (histCounts (-1) 4 2000 [pySub (.fin 40) (.fin 10)]).sum = 0 := by
    apply total_zero_of_all_four_lt
    intro v hv
    rw [List.mem_singleton] at hv
    exact ⟨40 - 10, hv, by norm_num⟩
  rw [histogram_all_nan _ _ _ _ hT]
  rw [show (2000 - 1 : ℕ) = 1998 + 1 from rfl, List.replicate_succ, cdfOf]
  exact cdfStep_nan_getLast _

/-- C10: the quantile extraction `binctr[np.argmax(cdf > t)]` never fails
for the non-empty bin-center arrays in play (every extracted quantile is a
bin center), and when the CDF never exceeds the threshold the all-false
boolean array makes `np.argmax` return 0, so the extracted quantile is the
first bin's center; the validator's own bin-center array always has 1999
entries, hence is never empty. -/
theorem C10_quantile_lookup (binctr : List ℚ) (cdf : List PyFloat) (t : ℚ)
    (hne : binctr ≠ []) (hlen : cdf.length = binctr.length) :
    (∃ x, quantileOf binctr cdf t = some x ∧ x ∈ binctr) ∧
    ((∀ c ∈ cdf, pyLt (.fin t) c = false) →
      quantileOf binctr cdf t = binctr.head?) ∧
    (∀ vals : List PyFloat, (histogramStep (-1) 4 2000 vals).1.length = 1999) := by
  have hlen0 : 0 < binctr.length := List.length_pos.mpr hne
  refine ⟨?_, ?_, ?_⟩
  · rw [quantileOf, argmaxBool]
    by_cases hany : (cdf.map (fun c => pyLt (.fin t) c)).any (fun x => x) = true
    · rw [if_pos hany]
      have hidx := List.findIdx_lt_length_of_exists (List.any_eq_true.mp hany)
      rw [List.length_map, hlen] at hidx
      exact ⟨_, List.getElem?_eq_getElem hidx, List.getElem_mem hidx⟩
    · rw [if_neg hany]
      exact ⟨_, List.getElem?_eq_getElem hlen0, List.getElem_mem hlen0⟩
  · intro hall
    have hany : (cdf.map (fun c => pyLt (.fin t) c)).any (fun x => x) = false := by
      rw [List.any_eq_false]
      intro x hx
      obtain ⟨c, hc, rfl⟩ := List.mem_map.mp hx
      rw [hall c hc]
      exact Bool.false_ne_true
    rw [quantileOf, argmaxBool, hany]
    rw [if_neg Bool.false_ne_true]
    rw [List.head?_eq_getElem?]
  · intro vals
    rw [histogramStep_fst, binctrList, List.length_map, List.length_range]

/-- Witness for C10 at the two-bin centers [1, 2] and the constant-zero
CDF with threshold 7 (never exceeded). -/
theorem C10_quantile_lookup_witness :
    ([1, 2] : List ℚ) ≠ [] ∧
    ([PyFloat.fin 0, PyFloat.fin 0].length = ([1, 2] : List ℚ).length) ∧
    ((∃ x, quantileOf [1, 2] [PyFloat.fin 0, PyFloat.fin 0] 7 = some x ∧
        x ∈ ([1, 2] : List ℚ)) ∧
    ((∀ c ∈ [PyFloat.fin 0, PyFloat.fin 0], pyLt (.fin 7) c = false) →
      quantileOf [1, 2] [PyFloat.fin 0, PyFloat.fin 0] 7 = ([1, 2] : List ℚ).head?) ∧
    (∀ vals : List PyFloat, (histogramStep (-1) 4 2000 vals).1.length = 1999)) :=
  ⟨by decide, by decide,
   C10_quantile_lookup [1, 2] [PyFloat.fin 0, PyFloat.fin 0] 7 (by decide) (by decide)⟩

theorem color_distribution_shape (gc : GalaxyCatalog) (cfg : VTConfig)
    (b1 b2 : String) (a b : ℚ) (n : ℕ) :
    ((color_distribution gc cfg b1 b2 a b n).1 = none ∧
      ((color_distribution gc cfg b1 b2 a b n).2 =
          ["No object in the redshift range!\n"] ∨
       (color_distribution gc cfg b1 b2 a b n).2 =
          ["No object in the magnitude range!\n"])) ∨
    ((color_distribution gc cfg b1 b2 a b n).1.isSome = true ∧
      (color_distribution gc cfg b1 b2 a b n).2 = []) := by
  simp only [color_distribution]
  split_ifs with h1 h2
  · exact Or.inl ⟨rfl, Or.inl rfl⟩
  · exact Or.inl ⟨rfl, Or.inr rfl⟩
  · exact Or.inr ⟨rfl, rfl⟩

theorem processColor_not_present (gc : GalaxyCatalog) (cfg : VTConfig)
    (s : RunState) (i : ℕ) (h : ¬ bandsPresent gc cfg i) :
    processColor gc cfg s i = .ok { s with logTxt := s.logTxt ++
      [missingMsg (band1of cfg i) (band2of cfg i)] } := by
  simp only [processColor]
  rw [if_neg h]

theorem processColor_empty (gc : GalaxyCatalog) (cfg : VTConfig)
    (s : RunState) (i : ℕ) (h : bandsPresent gc cfg i)
    (hcd : colorEmpty gc cfg i) :
    processColor gc cfg s i = .error { s with logTxt := s.logTxt ++
      (color_distribution gc cfg (band1of cfg i) (band2of cfg i) (-1) 4 2000).2 } := by
  simp only [processColor]
  rw [if_pos h]
  have hpair : color_distribution gc cfg (band1of cfg i) (band2of cfg i) (-1) 4 2000 =
      (none, (color_distribution gc cfg (band1of cfg i) (band2of cfg i) (-1) 4 2000).2) := by
    conv_lhs => rw [← Prod.mk.eta
      (p := color_distribution gc cfg (band1of cfg i) (band2of cfg i) (-1) 4 2000)]
    rw [hcd]
  rw [hpair]

theorem processColor_some (gc : GalaxyCatalog) (cfg : VTConfig)
    (s : RunState) (i : ℕ) (h : bandsPresent gc cfg i)
    (hcd : ¬ colorEmpty gc cfg i) :
    ∃ s2, processColor gc cfg s i = .ok s2 ∧ s2.noCdfQ = false ∧
      s2.logTxt = s.logTxt ++
        (color_distribution gc cfg (band1of cfg i) (band2of cfg i) (-1) 4 2000).2 ∧
      s2.comparedIdx = s.comparedIdx ++ [i] := by
  obtain ⟨md, hmd⟩ := Option.ne_none_iff_exists'.mp hcd
  have hpair : color_distribution gc cfg (band1of cfg i) (band2of cfg i) (-1) 4 2000 =
      (some md,
        (color_distribution gc cfg (band1of cfg i) (band2of cfg i) (-1) 4 2000).2) := by
    conv_lhs => rw [← Prod.mk.eta
      (p := color_distribution gc cfg (band1of cfg i) (band2of cfg i) (-1) 4 2000)]
    rw [hmd]
  have heq : processColor gc cfg s i = .ok { s with
      logTxt := s.logTxt ++
        (color_distribution gc cfg (band1of cfg i) (band2of cfg i) (-1) 4 2000).2
      noCdfQ := false
      comparedIdx := s.comparedIdx ++ [i]
      catalogQuantiles := s.catalogQuantiles.set i
        (quantThresholds.map (fun t => quantileOf md.1 (cdfOf md.2) t))
      validationQuantiles := s.validationQuantiles.set i
        (quantThresholds.map (fun t =>
          quantileOf (cfg.vsummary i).1 (cdfOf (cfg.vsummary i).2) t)) } := by
    simp only [processColor]
    rw [if_pos h, hpair]
  exact ⟨_, heq, rfl, rfl, rfl⟩

theorem runColors_ok (gc : GalaxyCatalog) (cfg : VTConfig) :
    ∀ idxs : List ℕ,
      (∀ i ∈ idxs, bandsPresent gc cfg i → ¬ colorEmpty gc cfg i) →
      ∀ s, ∃ s2, runColors gc cfg idxs s = .ok s2 ∧
        s2.noCdfQ = (s.noCdfQ &&
          idxs.all (fun i => !(decide (bandsPresent gc cfg i)))) := by
  intro idxs
  induction idxs with
  | nil =>
    intro _ s
    exact ⟨s, rfl, by simp⟩
  | cons i rest ih =>
    intro hno s
    by_cases hp : bandsPresent gc cfg i
    · have hne : ¬ colorEmpty gc cfg i := hno i (List.mem_cons_self _ _) hp
      obtain ⟨s2, hs2, hncdf, _, _⟩ := processColor_some gc cfg s i hp hne
      obtain ⟨s3, hrun, hn⟩ :=
        ih (fun j hj => hno j (List.mem_cons_of_mem _ hj)) s2
      refine ⟨s3, ?_, ?_⟩
      · rw [runColors, hs2]
        exact hrun
      · rw [hn, hncdf, List.all_cons]
        simp [hp]
    · rw [runColors, processColor_not_present gc cfg s i hp]
      obtain ⟨s3, hrun, hn⟩ :=
        ih (fun j hj => hno j (List.mem_cons_of_mem _ hj)) _
      refine ⟨s3, hrun, ?_⟩
      rw [hn, List.all_cons]
      simp [hp]

theorem runColors_error (gc : GalaxyCatalog) (cfg : VTConfig) :
    ∀ idxs : List ℕ,
      (∃ i ∈ idxs, bandsPresent gc cfg i ∧ colorEmpty gc cfg i) →
      ∀ s, ∃ s2, runColors gc cfg idxs s = .error s2 ∧
        ("No object in the redshift range!\n" ∈ s2.logTxt ∨
         "No object in the magnitude range!\n" ∈ s2.logTxt) := by
  intro idxs
  induction idxs with
  | nil =>
    intro hex
    simp at hex
  | cons i rest ih =>
    intro hex s
    by_cases hp : bandsPresent gc cfg i
    · by_cases hce : colorEmpty gc cfg i
      · refine ⟨_, by rw [runColors, processColor_empty gc cfg s i hp hce], ?_⟩
        rcases color_distribution_shape gc cfg (band1of cfg i) (band2of cfg i)
            (-1) 4 2000 with ⟨_, hmsg | hmsg⟩ | ⟨hsome, _⟩
        · left
          rw [hmsg]
          exact List.mem_append_right _ (List.mem_singleton.mpr rfl)
        · right
          rw [hmsg]
          exact List.mem_append_right _ (List.mem_singleton.mpr rfl)
        · rw [hce] at hsome
          simp at hsome
      · have hex2 : ∃ j ∈ rest, bandsPresent gc cfg j ∧ colorEmpty gc cfg j := by
          rcases hex with ⟨j, hj, hpj, hej⟩
          rcases List.mem_cons.mp hj with rfl | hjr
          · exact absurd hej hce
          · exact ⟨j, hjr, hpj, hej⟩
        obtain ⟨s2, hs2, _, _, _⟩ := processColor_some gc cfg s i hp hce
        obtain ⟨s3, hrun, hmsg⟩ := ih hex2 s2
        refine ⟨s3, ?_, hmsg⟩
        rw [runColors, hs2]
        exact hrun
    · have hex2 : ∃ j ∈ rest, bandsPresent gc cfg j ∧ colorEmpty gc cfg j := by
        rcases hex with ⟨j, hj, hpj, hej⟩
        rcases List.mem_cons.mp hj with rfl | hjr
        · exact absurd hpj hp
        · exact ⟨j, hjr, hpj, hej⟩
      obtain ⟨s3, hrun, hmsg⟩ := ih hex2 _
      refine ⟨s3, ?_, hmsg⟩
      rw [runColors, processColor_not_present gc cfg s i hp]
      exact hrun

/-- C2 (amended): `run_validation_test` returns PASSED exactly when no
color with both bands present hit an empty result set AND at least one
color had both bands present; an empty result set aborts the whole run
with SKIPPED even if an earlier color already produced a valid CDF
comparison (see the counterexample).  The status is always PASSED or
SKIPPED; FAILED is never returned. -/
theorem C2_pass_iff (gc : GalaxyCatalog) (cfg : VTConfig) :
    ((run_validation_test gc cfg).1.status = "PASSED" ↔
      ((∀ i ∈ List.range cfg.colors.length,
          bandsPresent gc cfg i → ¬ colorEmpty gc cfg i) ∧
       (∃ i ∈ List.range cfg.colors.length, bandsPresent gc cfg i))) ∧
    ((run_validation_test gc cfg).1.status = "PASSED" ∨
     (run_validation_test gc cfg).1.status = "SKIPPED") := by
  constructor
  · by_cases hall : ∀ i ∈ List.range cfg.colors.length,
        bandsPresent gc cfg i → ¬ colorEmpty gc cfg i
    · obtain ⟨s2, hrun, hn⟩ := runColors_ok gc cfg _ hall (initState cfg)
      have hstat : (run_validation_test gc cfg).1.status =
          if s2.noCdfQ = true then "SKIPPED" else "PASSED" := by
        simp only [run_validation_test]
        rw [hrun]
      simp only [initState, Bool.true_and] at hn
      rw [hstat]
      cases hb : s2.noCdfQ with
      | true =>
        rw [if_pos rfl]
        rw [hb] at hn
        constructor
        · intro hst
          exact absurd hst (by decide)
        · rintro ⟨-, i, hi, hpi⟩
          have hall2 := List.all_eq_true.mp hn.symm i hi
          rw [Bool.not_eq_true', decide_eq_false_iff_not] at hall2
          exact absurd hpi hall2
      | false =>
        rw [if_neg (by decide : ¬ (false = true))]
        rw [hb] at hn
        constructor
        · intro _
          refine ⟨hall, ?_⟩
          have hnall : ¬ ((List.range cfg.colors.length).all
              (fun i => !(decide (bandsPresent gc cfg i))) = true) := by
            rw [← hn]
            exact Bool.false_ne_true
          rw [List.all_eq_true] at hnall
          push_neg at hnall
          obtain ⟨i, hi, hni⟩ := hnall
          simp only [ne_eq, Bool.not_eq_true', decide_eq_false_iff_not,
            not_not] at hni
          exact ⟨i, hi, hni⟩
        · intro _
          rfl
    · push_neg at hall
      obtain ⟨i, hi, hpi, hei⟩ := hall
      obtain ⟨s2, hrun, -⟩ := runColors_error gc cfg _ ⟨i, hi, hpi, hei⟩ (initState cfg)
      have hstat : (run_validation_test gc cfg).1.status = "SKIPPED" := by
        simp only [run_validation_test]
        rw [hrun]
      rw [hstat]
      constructor
      · intro hst
        exact absurd hst (by decide)
      · rintro ⟨hno, -⟩
        exact absurd hei (hno i hi hpi)
  · cases hres : runColors gc cfg (List.range cfg.colors.length) (initState cfg) with
    | error s2 =>
      right
      simp only [run_validation_test]
      rw [hres]
    | ok s2 =>
      have hstat : (run_validation_test gc cfg).1.status =
          if s2.noCdfQ = true then "SKIPPED" else "PASSED" := by
        simp only [run_validation_test]
        rw [hres]
      rw [hstat]
      cases hb : s2.noCdfQ with
      | true => right; rw [if_pos rfl]
      | false => left; rw [if_neg (by decide : ¬ (false = true))]

/-- Counterexample to C2 as stated: with colors ["a-b", "c-d"], the first
color produces a valid CDF comparison (`comparedIdx = [0]`), but the
second color's empty magnitude range makes `run_validation_test` return
SKIPPED — so "PASSED iff at least one color produced a valid CDF
comparison" is false. -/
theorem C2_counterexample :
    (run_validation_test gcC2 cfgC2).1.status = "SKIPPED" ∧
    (run_validation_test gcC2 cfgC2).2.comparedIdx = [0] := by
  constructor
  · rfl
  · rfl

/-- C1 (amended): when a color with both bands present yields an empty
result set (no rows in the redshift window, or none surviving the
magnitude filter), the corresponding warning is written to `log.txt`, but
`run_validation_test` then aborts the ENTIRE run, returning SKIPPED via
the early `return` of line 204 — it does not continue with the next
color. -/
theorem C1_empty_aborts_run (gc : GalaxyCatalog) (cfg : VTConfig) (i : ℕ)
    (hi : i < cfg.colors.length) (hp : bandsPresent gc cfg i)
    (he : colorEmpty gc cfg i) :
    (run_validation_test gc cfg).1.status = "SKIPPED" ∧
    ∃ s2, runColors gc cfg (List.range cfg.colors.length) (initState cfg) =
        .error s2 ∧
      ("No object in the redshift range!\n" ∈ s2.logTxt ∨
       "No object in the magnitude range!\n" ∈ s2.logTxt) := by
  obtain ⟨s2, hrun, hmsg⟩ := runColors_error gc cfg _
    ⟨i, List.mem_range.mpr hi, hp, he⟩ (initState cfg)
  refine ⟨?_, s2, hrun, hmsg⟩
  simp only [run_validation_test]
  rw [hrun]

/-- Witness for C1 at a catalog with both bands present but no row in the
redshift window. -/
theorem C1_empty_aborts_run_witness :
    (0 < cfgC1w.colors.length ∧ bandsPresent gcC1w cfgC1w 0 ∧
      colorEmpty gcC1w cfgC1w 0) ∧
    ((run_validation_test gcC1w cfgC1w).1.status = "SKIPPED" ∧
    ∃ s2, runColors gcC1w cfgC1w (List.range cfgC1w.colors.length)
        (initState cfgC1w) = .error s2 ∧
      ("No object in the redshift range!\n" ∈ s2.logTxt ∨
       "No object in the magnitude range!\n" ∈ s2.logTxt)) :=
  ⟨⟨by decide, by decide, by decide⟩,
   C1_empty_aborts_run gcC1w cfgC1w 0 (by decide) (by decide) (by decide)⟩

/-- Counterexample to C1 as stated: color "a-b" hits the empty magnitude
range, and the run aborts — the valid color "c-d" is never processed
(`comparedIdx = []`) and the whole run returns SKIPPED, although the same
catalog with only color "c-d" configured returns PASSED.  Processing does
NOT continue with the next color. -/
theorem C1_counterexample :
    (run_validation_test gcC1 cfgC1).1.status = "SKIPPED" ∧
    (run_validation_test gcC1 cfgC1).2.comparedIdx = [] ∧
    (run_validation_test gcC1 cfgC1single).1.status = "PASSED" := by
  refine ⟨rfl, rfl, rfl⟩

/-- C9: when a configured color's translated band is absent from the
catalog's quantity table, the loop writes to `log.txt` a single line
containing both band names, changes nothing else, and continues with the
remaining colors. -/
theorem C9_missing_band_skip (gc : GalaxyCatalog) (cfg : VTConfig)
    (s : RunState) (i : ℕ) (rest : List ℕ)
    (h : ¬ bandsPresent gc cfg i) :
    processColor gc cfg s i = .ok { s with logTxt := s.logTxt ++
      [missingMsg (band1of cfg i) (band2of cfg i)] } ∧
    runColors gc cfg (i :: rest) s = runColors gc cfg rest
      { s with logTxt := s.logTxt ++
        [missingMsg (band1of cfg i) (band2of cfg i)] } ∧
    (∃ u v : String, missingMsg (band1of cfg i) (band2of cfg i) =
      u ++ band1of cfg i ++ v) ∧
    (∃ u v : String, missingMsg (band1of cfg i) (band2of cfg i) =
      u ++ band2of cfg i ++ v) := by
  refine ⟨processColor_not_present gc cfg s i h, ?_, ?_, ?_⟩
  · rw [runColors, processColor_not_present gc cfg s i h]
  · exact ⟨"galaxy catalog does not have `",
      "` and/or `" ++ band2of cfg i ++
        "` quantity, skipping the rest of the validation test.\n", rfl⟩
  · refine ⟨"galaxy catalog does not have `" ++ band1of cfg i ++ "` and/or `",
      "` quantity, skipping the rest of the validation test.\n", ?_⟩
    simp only [missingMsg, String.append_assoc]

/-- Witness for C9 at a catalog with no quantities: the single color's
bands translate to "Q", which is missing, and the loop skips it with the
logged message and continues. -/
theorem C9_missing_band_skip_witness :
    (¬ bandsPresent gcC9 cfgC9 0) ∧
    (processColor gcC9 cfgC9 (initState cfgC9) 0 = .ok { (initState cfgC9) with
        logTxt := (initState cfgC9).logTxt ++
          [missingMsg (band1of cfgC9 0) (band2of cfgC9 0)] } ∧
     runColors gcC9 cfgC9 (0 :: []) (initState cfgC9) = runColors gcC9 cfgC9 []
       { (initState cfgC9) with logTxt := (initState cfgC9).logTxt ++
         [missingMsg (band1of cfgC9 0) (band2of cfgC9 0)] } ∧
     (∃ u v : String, missingMsg (band1of cfgC9 0) (band2of cfgC9 0) =
       u ++ band1of cfgC9 0 ++ v) ∧
     (∃ u v : String, missingMsg (band1of cfgC9 0) (band2of cfgC9 0) =
       u ++ band2of cfgC9 0 ++ v)) :=
  ⟨by decide, C9_missing_band_skip gcC9 cfgC9 (initState cfgC9) 0 [] (by decide)⟩
